import Mathlib

/-!
Verification of the minecraft-query wire-protocol library.

The Rust sources (`src/lib.rs`, `src/server_object.rs`) are shallowly
embedded below.  Bytes are `Nat` (with values `< 256` where relevant),
byte streams are `List Nat`, Rust `i32` values are `Int` together with
explicit two's-complement bit patterns (`Nat` values `< 2^32`), and
fallible operations return `Except QueryError`.  Network transport is
abstracted as the list of bytes a peer sends back: `get_server_json`
is modelled as a function of that response stream.
-/

namespace MCQuery

/-- Error taxonomy of the library.  In the Rust code every failure is a
`Box<dyn Error>` with a message; we distinguish the messages as
constructors: stream exhausted (`read_exact` EOF), malformed VarInt
("Server's reponse had invaild VarInt"), oversized payload ("Response
too large"), invalid UTF-8 (`String::from_utf8` failure) and JSON
deserialization failure (`serde_json`). -/
inductive QueryError
  | ioError
  | protocolError
  | payloadTooLarge
  | encodingError
  | deserializationError
  deriving DecidableEq, Repr

/-- The `while value >= 0x80` loop of `var_int_encode` in `src/lib.rs`.
Inside the loop the value is `≥ 0x80`, hence positive, so the Rust
arithmetic shift `value >>= 7` on `i32` agrees with division by 128 on
`Nat` and the push `0x80 | (value as u8)` is `0x80 ||| (value % 256)`;
the final push `value as u8` is `value % 256`. -/
def encodeLoop (value : Nat) : List Nat :=
  if 0x80 ≤ value then
    (0x80 ||| value % 256) :: encodeLoop (value / 128)
  else
    [value % 256]
termination_by value
decreasing_by omega

/-- `var_int_encode` from `src/lib.rs`: `num` is the `i32` argument.
For `num ≥ 0x80` the loop runs on the (positive) value; otherwise —
including every negative `num` — the loop body never executes and the
single byte `num as u8`, i.e. the low 8 bits `(num % 256)`, is pushed. -/
def var_int_encode (num : Int) : List Nat :=
  if 0x80 ≤ num then encodeLoop num.toNat else [(num % 256).toNat]

/-- `(current_byte[0] as i32 & 0x7F).checked_shl(length * 7).unwrap_or(0)`
from `var_int_read` in `src/lib.rs`, on `i32` bit patterns:
`checked_shl` yields `None` exactly when the shift amount `length * 7`
is `≥ 32` (the bit width), in which case `unwrap_or` substitutes `0`;
otherwise the shift keeps the low 32 bits. -/
def shlContribution (b length : Nat) : Nat :=
  if 32 ≤ length * 7 then 0 else ((b &&& 0x7F) <<< (length * 7)) % 2 ^ 32

/-- The read loop of `var_int_read` in `src/lib.rs`.  `value` is the
`i32` accumulator as a bit pattern, `length` the number of bytes read
so far.  Each iteration reads one byte (EOF is an I/O error), ORs in
the checked-shift contribution, increments `length`, errors once
`length > 5`, and stops when the continuation bit `0x80` is clear. -/
def varIntLoop : List Nat → Nat → Nat → Except QueryError (Nat × List Nat)
  | [], _, _ => .error .ioError
  | b :: rest, value, length =>
    let value := value ||| shlContribution b length
    if 5 < length + 1 then .error .protocolError
    else if b &&& 0x80 = 0x80 then varIntLoop rest value (length + 1)
    else .ok (value, rest)

/-- Reinterpret a 32-bit pattern as a signed `i32` value. -/
def i32ofBits (v : Nat) : Int :=
  if v < 2 ^ 31 then (v : Int) else (v : Int) - 2 ^ 32

/-- `var_int_read` from `src/lib.rs`, over the byte stream: returns the
decoded `i32` and the unconsumed remainder of the stream. -/
def var_int_read (stream : List Nat) : Except QueryError (Int × List Nat) :=
  match varIntLoop stream 0 0 with
  | .error e => .error e
  | .ok (v, rest) => .ok (i32ofBits v, rest)

/-- `var_int_pack` from `src/lib.rs`: prefix `data` with its length
encoded as a VarInt (`data.len() as i32` reinterprets the length as a
32-bit pattern). -/
def var_int_pack (data : List Nat) : List Nat :=
  var_int_encode (i32ofBits (data.length % 2 ^ 32)) ++ data

/-- UTF-8 encoding of one scalar value (Rust `str::as_bytes` views the
hostname's UTF-8 bytes). -/
def utf8EncodeChar (c : Char) : List Nat :=
  let u := c.toNat
  if u < 0x80 then [u]
  else if u < 0x800 then [0xC0 ||| u / 64, 0x80 ||| u % 64]
  else if u < 0x10000 then
    [0xE0 ||| u / 4096, 0x80 ||| u / 64 % 64, 0x80 ||| u % 64]
  else
    [0xF0 ||| u / 262144, 0x80 ||| u / 4096 % 64, 0x80 ||| u / 64 % 64,
     0x80 ||| u % 64]

/-- The UTF-8 bytes of a string (`hostname.as_bytes()`). -/
def utf8Encode (s : String) : List Nat :=
  s.data.flatMap utf8EncodeChar

/-- `status_packet_builder` from `src/lib.rs`: the VarInt-length-packed
handshake body `0x00 | 0x00 | VarInt(hostlen)+hostbytes | port BE |
0x01` followed by the packed status-request body `0x00`. -/
def status_packet_builder (hostname : String) (port : Nat) : List Nat :=
  var_int_pack
    ([0x00, 0x00] ++ var_int_pack (utf8Encode hostname) ++
      [port / 256 % 256, port % 256] ++ [0x01]) ++
  var_int_pack [0x00]

/-- `MAX_PACKET_SIZE` from `src/lib.rs` (a `u32`): 50 MiB. -/
def MAX_PACKET_SIZE : Nat := 1024 * 1024 * 50

/-- Modelled from the spec: strict UTF-8 validation as performed by the
external `String::from_utf8` collaborator ("returns it as a UTF-8
string, failing with an encoding error if the bytes are not valid
UTF-8").  Standard UTF-8: 1–4 byte sequences, continuation bytes in
`0x80..0xBF`, overlong encodings, surrogates (`0xED 0xA0..`) and code
points above `0x10FFFF` rejected. -/
def utf8DecodeLoop : List Nat → Option (List Char)
  | [] => some []
  | b :: rest =>
    if b < 0x80 then
      (utf8DecodeLoop rest).map (Char.ofNat b :: ·)
    else if 0xC2 ≤ b ∧ b ≤ 0xDF then
      match rest with
      | c1 :: rest1 =>
        if 0x80 ≤ c1 ∧ c1 ≤ 0xBF then
          (utf8DecodeLoop rest1).map
            (Char.ofNat ((b - 0xC0) * 64 + (c1 - 0x80)) :: ·)
        else none
      | _ => none
    else if 0xE0 ≤ b ∧ b ≤ 0xEF then
      match rest with
      | c1 :: c2 :: rest2 =>
        let lo1 := if b = 0xE0 then 0xA0 else 0x80
        let hi1 := if b = 0xED then 0x9F else 0xBF
        if (lo1 ≤ c1 ∧ c1 ≤ hi1) ∧ (0x80 ≤ c2 ∧ c2 ≤ 0xBF) then
          (utf8DecodeLoop rest2).map
            (Char.ofNat ((b - 0xE0) * 4096 + (c1 - 0x80) * 64 + (c2 - 0x80)) :: ·)
        else none
      | _ => none
    else if 0xF0 ≤ b ∧ b ≤ 0xF4 then
      match rest with
      | c1 :: c2 :: c3 :: rest3 =>
        let lo1 := if b = 0xF0 then 0x90 else 0x80
        let hi1 := if b = 0xF4 then 0x8F else 0xBF
        if (lo1 ≤ c1 ∧ c1 ≤ hi1) ∧ (0x80 ≤ c2 ∧ c2 ≤ 0xBF) ∧
            (0x80 ≤ c3 ∧ c3 ≤ 0xBF) then
          (utf8DecodeLoop rest3).map
            (Char.ofNat ((b - 0xF0) * 262144 + (c1 - 0x80) * 4096 +
              (c2 - 0x80) * 64 + (c3 - 0x80)) :: ·)
        else none
      | _ => none
    else none

/-- Bytes to string, `none` on invalid UTF-8 (`String::from_utf8`). -/
def utf8Decode (bs : List Nat) : Option String :=
  (utf8DecodeLoop bs).map List.asString

/-- Modelled from the spec: the generic JSON value of the external
`serde_json` collaborator ("parse bytes into a generic JSON value").
Numbers are restricted to integers (no field of the status schema is
fractional); objects carry their fields as an association list. -/
inductive Json
  | null
  | bool (b : Bool)
  | num (n : Int)
  | str (s : String)
  | arr (elements : List Json)
  | obj (fields : List (String × Json))

/-- Byte-wise (code-point-wise) lexicographic order on strings, used to
model the `BTreeMap` key order of `serde_json::Map`. -/
def charListLt : List Char → List Char → Bool
  | [], [] => false
  | [], _ :: _ => true
  | _ :: _, [] => false
  | a :: as, b :: bs =>
    if a.toNat < b.toNat then true
    else if b.toNat < a.toNat then false
    else charListLt as bs

/-- Modelled from the spec: `serde_json::Map` (a `BTreeMap`) — keys kept
sorted, and on a duplicate key the later occurrence in the document
wins.  The parser below accumulates members right to left, so the list
being inserted into holds the *later* members and an existing binding
is kept. -/
def objInsert (k : String) (v : Json) :
    List (String × Json) → List (String × Json)
  | [] => [(k, v)]
  | (k2, v2) :: rest =>
    if charListLt k.data k2.data then (k, v) :: (k2, v2) :: rest
    else if k = k2 then (k2, v2) :: rest
    else (k2, v2) :: objInsert k v rest

/-- JSON whitespace skipping (space, tab, line feed, carriage return). -/
def skipWs : List Char → List Char
  | c :: rest =>
    if c = ' ' ∨ c = '\t' ∨ c = '\n' ∨ c = '\r' then skipWs rest
    else c :: rest
  | [] => []

/-- One or more decimal digits. -/
def parseDigits : List Char → Nat → Option (Nat × List Char)
  | c :: rest, acc =>
    if '0' ≤ c ∧ c ≤ '9' then
      match parseDigits rest (acc * 10 + (c.toNat - 48)) with
      | some r => some r
      | none => some (acc * 10 + (c.toNat - 48), rest)
    else none
  | [], _ => none

/-- Modelled from the spec: JSON number grammar of the external parser,
restricted to integers — an optional minus sign, then `0` or a nonzero
digit followed by digits; a following `.`, `e` or `E` (a fractional or
exponent part) is not modelled and rejected. -/
def parseNumber (cs : List Char) : Option (Int × List Char) :=
  let (sign, cs1) : Bool × List Char :=
    match cs with
    | '-' :: rest => (true, rest)
    | _ => (false, cs)
  let core : Option (Nat × List Char) :=
    match cs1 with
    | '0' :: rest =>
      match rest with
      | c :: _ => if '0' ≤ c ∧ c ≤ '9' then none else some (0, rest)
      | [] => some (0, [])
    | c :: _ =>
      if '1' ≤ c ∧ c ≤ '9' then parseDigits cs1 0 else none
    | [] => none
  match core with
  | some (n, rest) =>
    match rest with
    | c :: _ =>
      if c = '.' ∨ c = 'e' ∨ c = 'E' then none
      else some (if sign then -(n : Int) else (n : Int), rest)
    | [] => some (if sign then -(n : Int) else (n : Int), [])
  | none => none

/-- JSON string body after the opening quote; the usual single-character
escapes are modelled (`\u` escapes are not), raw control characters are
rejected. -/
def parseStringBody : List Char → Option (List Char × List Char)
  | [] => none
  | c :: rest =>
    if c = '"' then some ([], rest)
    else if c = '\\' then
      match rest with
      | e :: rest2 =>
        let ec : Option Char :=
          if e = '"' then some '"'
          else if e = '\\' then some '\\'
          else if e = '/' then some '/'
          else if e = 'n' then some '\n'
          else if e = 't' then some '\t'
          else if e = 'r' then some '\r'
          else if e = 'b' then some (Char.ofNat 8)
          else if e = 'f' then some (Char.ofNat 12)
          else none
        match ec with
        | some d =>
          match parseStringBody rest2 with
          | some (s, r) => some (d :: s, r)
          | none => none
        | none => none
      | [] => none
    else if c.toNat < 0x20 then none
    else
      match parseStringBody rest with
      | some (s, r) => some (c :: s, r)
      | none => none

mutual

/-- Modelled from the spec: recursive-descent parse of one JSON value
(the external `serde_json` parser), with fuel bounding the nesting. -/
def parseValue : Nat → List Char → Option (Json × List Char)
  | 0, _ => none
  | _ + 1, [] => none
  | fuel + 1, c :: rest =>
    if c = 'n' then
      match rest with
      | 'u' :: 'l' :: 'l' :: r => some (.null, r)
      | _ => none
    else if c = 't' then
      match rest with
      | 'r' :: 'u' :: 'e' :: r => some (.bool true, r)
      | _ => none
    else if c = 'f' then
      match rest with
      | 'a' :: 'l' :: 's' :: 'e' :: r => some (.bool false, r)
      | _ => none
    else if c = '"' then
      match parseStringBody rest with
      | some (s, r) => some (.str (List.asString s), r)
      | none => none
    else if c = '[' then
      match skipWs rest with
      | ']' :: r => some (.arr [], r)
      | cs1 => (parseElements fuel cs1).map (fun (xs, r) => (.arr xs, r))
    else if c = '{' then
      match skipWs rest with
      | '}' :: r => some (.obj [], r)
      | cs1 => (parseMembers fuel cs1).map (fun (fs, r) => (.obj fs, r))
    else
      (parseNumber (c :: rest)).map (fun (n, r) => (.num n, r))

/-- Comma-separated JSON array elements up to the closing bracket. -/
def parseElements : Nat → List Char → Option (List Json × List Char)
  | 0, _ => none
  | fuel + 1, cs =>
    match parseValue fuel cs with
    | some (j, r) =>
      match skipWs r with
      | ',' :: r2 =>
        (parseElements fuel (skipWs r2)).map (fun (xs, r3) => (j :: xs, r3))
      | ']' :: r2 => some ([j], r2)
      | _ => none
    | none => none

/-- Comma-separated JSON object members up to the closing brace. -/
def parseMembers : Nat → List Char → Option (List (String × Json) × List Char)
  | 0, _ => none
  | fuel + 1, cs =>
    match cs with
    | '"' :: cs1 =>
      match parseStringBody cs1 with
      | some (k, r) =>
        match skipWs r with
        | ':' :: r2 =>
          match parseValue fuel (skipWs r2) with
          | some (v, r3) =>
            match skipWs r3 with
            | ',' :: r4 =>
              (parseMembers fuel (skipWs r4)).map
                (fun (fs, r5) => (objInsert (List.asString k) v fs, r5))
            | '}' :: r4 => some ([(List.asString k, v)], r4)
            | _ => none
          | none => none
        | _ => none
      | none => none
    | _ => none

end

/-- Modelled from the spec: `serde_json::from_str::<Value>` — parse a
complete JSON document, allowing surrounding whitespace, rejecting
trailing input. -/
def jsonParse (s : String) : Option Json :=
  let cs := skipWs s.data
  match parseValue (cs.length + 1) cs with
  | some (j, rest) => if skipWs rest = [] then some j else none
  | none => none

/-- Hexadecimal digit for `\uXXXX` escapes in serialized output. -/
def hexDigit (n : Nat) : Char :=
  if n < 10 then Char.ofNat (48 + n) else Char.ofNat (87 + n)

/-- Modelled from the spec: `serde_json`'s string escaping on output —
quote, backslash and control characters escaped, everything else
verbatim. -/
def escapeChar (c : Char) : List Char :=
  if c = '"' then ['\\', '"']
  else if c = '\\' then ['\\', '\\']
  else if c = '\n' then ['\\', 'n']
  else if c = '\t' then ['\\', 't']
  else if c = '\r' then ['\\', 'r']
  else if c = Char.ofNat 8 then ['\\', 'b']
  else if c = Char.ofNat 12 then ['\\', 'f']
  else if c.toNat < 0x20 then
    ['\\', 'u', '0', '0', hexDigit (c.toNat / 16), hexDigit (c.toNat % 16)]
  else [c]

/-- Serialized form of a JSON string literal. -/
def strToJsonString (s : String) : String :=
  "\"" ++ List.asString (s.data.flatMap escapeChar) ++ "\""

mutual

/-- Modelled from the spec: `serde_json::Value::to_string()` — the
compact serialization (no whitespace) of a JSON value; object fields
are emitted in the map's (sorted) order. -/
def jsonToString : Json → String
  | .null => "null"
  | .bool true => "true"
  | .bool false => "false"
  | .num n => toString n
  | .str s => strToJsonString s
  | .arr elements => "[" ++ jsonElementsToString elements ++ "]"
  | .obj fields => "\x7b" ++ jsonFieldsToString fields ++ "\x7d"

/-- Comma-separated serialization of array elements. -/
def jsonElementsToString : List Json → String
  | [] => ""
  | [j] => jsonToString j
  | j :: rest => jsonToString j ++ "," ++ jsonElementsToString rest

/-- Comma-separated serialization of object members. -/
def jsonFieldsToString : List (String × Json) → String
  | [] => ""
  | [(k, v)] => strToJsonString k ++ ":" ++ jsonToString v
  | (k, v) :: rest =>
    strToJsonString k ++ ":" ++ jsonToString v ++ "," ++
      jsonFieldsToString rest

end

/-- `Description` from `src/server_object.rs`. -/
structure Description where
  text : String
  deriving DecidableEq, Repr

/-- `Sample` from `src/server_object.rs`. -/
structure Sample where
  id : String
  name : String
  deriving DecidableEq, Repr

/-- `Players` from `src/server_object.rs`; `max` and `online` are `i64`,
`sample` carries `#[serde(default)]`. -/
structure Players where
  max : Int
  online : Int
  sample : List Sample
  deriving DecidableEq, Repr

/-- `Version` from `src/server_object.rs`; `protocol` is `i64`. -/
structure Version where
  name : String
  protocol : Int
  deriving DecidableEq, Repr

/-- `ServerStatus` from `src/server_object.rs`; `favicon` carries
`#[serde(default)]`. -/
structure ServerStatus where
  description : Description
  favicon : String
  players : Players
  version : Version
  deriving DecidableEq, Repr

/-- First binding of a key in an object's field list. -/
def objLookup (k : String) : List (String × Json) → Option Json
  | [] => none
  | (k2, v) :: rest => if k2 = k then some v else objLookup k rest

/-- Modelled from the spec: deserializing a JSON value into a `String`
field (`serde`): only a JSON string is accepted. -/
def getString : Json → Except QueryError String
  | .str s => .ok s
  | _ => .error .deserializationError

/-- Modelled from the spec: deserializing a JSON value into an `i64`
field (`serde`): only an integral JSON number within the `i64` range is
accepted. -/
def getI64 : Json → Except QueryError Int
  | .num n =>
    if -(2 ^ 63) ≤ n ∧ n < 2 ^ 63 then .ok n
    else .error .deserializationError
  | _ => .error .deserializationError

/-- Modelled from the spec: the `serde`-derived deserializer for
`Description` — the field `text` is required. -/
def deserializeDescription : Json → Except QueryError Description
  | .obj fields =>
    match objLookup "text" fields with
    | some t => (getString t).map (fun s => ⟨s⟩)
    | none => .error .deserializationError
  | _ => .error .deserializationError

/-- Modelled from the spec: the `serde`-derived deserializer for
`Sample` — fields `id` and `name` are required strings. -/
def deserializeSample : Json → Except QueryError Sample
  | .obj fields =>
    match objLookup "id" fields, objLookup "name" fields with
    | some i, some n =>
      match getString i, getString n with
      | .ok i2, .ok n2 => .ok ⟨i2, n2⟩
      | _, _ => .error .deserializationError
    | _, _ => .error .deserializationError
  | _ => .error .deserializationError

/-- Element-wise deserialization of a `sample` array. -/
def deserializeSampleList : List Json → Except QueryError (List Sample)
  | [] => .ok []
  | j :: rest =>
    match deserializeSample j, deserializeSampleList rest with
    | .ok s, .ok ss => .ok (s :: ss)
    | .error e, _ => .error e
    | _, .error e => .error e

/-- Modelled from the spec: the `serde`-derived deserializer for
`Players` — `max` and `online` are required `i64`s; an absent `sample`
defaults to the empty list (`#[serde(default)]`), a present one must be
an array of valid samples. -/
def deserializePlayers : Json → Except QueryError Players
  | .obj fields =>
    let sample : Except QueryError (List Sample) :=
      match objLookup "sample" fields with
      | none => .ok []
      | some (.arr xs) => deserializeSampleList xs
      | some _ => .error .deserializationError
    match objLookup "max" fields, objLookup "online" fields with
    | some m, some o =>
      match getI64 m, getI64 o, sample with
      | .ok m2, .ok o2, .ok s2 => .ok ⟨m2, o2, s2⟩
      | .error e, _, _ => .error e
      | _, .error e, _ => .error e
      | _, _, .error e => .error e
    | _, _ => .error .deserializationError
  | _ => .error .deserializationError

/-- Modelled from the spec: the `serde`-derived deserializer for
`Version` — `name` (string) and `protocol` (`i64`) are required. -/
def deserializeVersion : Json → Except QueryError Version
  | .obj fields =>
    match objLookup "name" fields, objLookup "protocol" fields with
    | some n, some p =>
      match getString n, getI64 p with
      | .ok n2, .ok p2 => .ok ⟨n2, p2⟩
      | .error e, _ => .error e
      | _, .error e => .error e
    | _, _ => .error .deserializationError
  | _ => .error .deserializationError

/-- The required `description` field of a `ServerStatus` object. -/
def descriptionField (fields : List (String × Json)) :
    Except QueryError Description :=
  match objLookup "description" fields with
  | some d => deserializeDescription d
  | none => .error .deserializationError

/-- The optional `favicon` field: an absent one defaults to `""`
(`#[serde(default)]`). -/
def faviconField (fields : List (String × Json)) : Except QueryError String :=
  match objLookup "favicon" fields with
  | some f => getString f
  | none => .ok ""

/-- The required `players` field of a `ServerStatus` object. -/
def playersField (fields : List (String × Json)) : Except QueryError Players :=
  match objLookup "players" fields with
  | some p => deserializePlayers p
  | none => .error .deserializationError

/-- The required `version` field of a `ServerStatus` object. -/
def versionField (fields : List (String × Json)) : Except QueryError Version :=
  match objLookup "version" fields with
  | some v => deserializeVersion v
  | none => .error .deserializationError

/-- Modelled from the spec: the `serde`-derived deserializer for
`ServerStatus` (`src/server_object.rs`) — `description`, `players` and
`version` are required, an absent `favicon` defaults to the empty
string (`#[serde(default)]`), and fields outside the schema are ignored
(`serde`'s default behavior for unknown fields). -/
def deserializeServerStatus : Json → Except QueryError ServerStatus
  | .obj fields =>
    match descriptionField fields, faviconField fields,
        playersField fields, versionField fields with
    | .ok d, .ok f, .ok p, .ok v => .ok ⟨d, f, p, v⟩
    | .error e, _, _, _ => .error e
    | _, .error e, _, _ => .error e
    | _, _, .error e, _ => .error e
    | _, _, _, .error e => .error e
  | _ => .error .deserializationError

/-- `parse_json` from `src/lib.rs`:
`serde_json::from_str::<ServerStatus>(json)`, modelled as the generic
parse followed by the derived deserialization. -/
def parse_json (json : String) : Except QueryError ServerStatus :=
  match jsonParse json with
  | some j => deserializeServerStatus j
  | none => .error .deserializationError

/-- `get_server_json` from `src/lib.rs`, modelled past the connection
step as a function of the response byte stream: read the frame-length,
packet-id and string-length VarInts, reject a declared length whose
`u32` reinterpretation exceeds `MAX_PACKET_SIZE`, read exactly
`string_length as usize` bytes, decode them as UTF-8, parse the text
with `serde_json` and return `json.to_string()`. -/
def get_server_json (stream : List Nat) : Except QueryError String :=
  match var_int_read stream with
  | .error e => .error e
  | .ok (_length, s1) =>
    match var_int_read s1 with
    | .error e => .error e
    | .ok (_id, s2) =>
      match var_int_read s2 with
      | .error e => .error e
      | .ok (string_length, s3) =>
        if MAX_PACKET_SIZE < (string_length % 2 ^ 32).toNat then
          .error .payloadTooLarge
        else
          let n := (string_length % 2 ^ 64).toNat
          if s3.length < n then .error .ioError
          else
            match utf8Decode (s3.take n) with
            | none => .error .encodingError
            | some text =>
              match jsonParse text with
              | none => .error .deserializationError
              | some j => .ok (jsonToString j)

/-- `server_status` from `src/lib.rs`, over the response stream. -/
def server_status (stream : List Nat) : Except QueryError ServerStatus :=
  match get_server_json stream with
  | .error e => .error e
  | .ok raw_json => parse_json raw_json

/-- A byte sequence is a well-formed, minimal serialized VarInt: it is
nonempty, at most five bytes long, every byte but the last carries the
continuation bit `0x80`, and the last byte does not. -/
def varIntWellFormed (bs : List Nat) : Bool :=
  decide (bs ≠ []) && decide (bs.length ≤ 5) &&
    bs.dropLast.all (fun b => (b &&& 0x80) == 0x80) &&
    (match bs.getLast? with
     | some b => !((b &&& 0x80) == 0x80)
     | none => false)

/-- The dotted required path `outer.inner` is missing from a JSON
object's fields: either `outer` is absent, or it is bound to an object
that lacks the key `inner`. -/
def pathMissing (fields : List (String × Json)) (outer inner : String) : Prop :=
  match objLookup outer fields with
  | none => True
  | some (.obj innerFields) => objLookup inner innerFields = none
  | some _ => False

/-! ### Bit-level helper lemmas -/

theorem lor_disjoint (a b k : Nat) (h : a < 2 ^ k) :
    a ||| b * 2 ^ k = a + b * 2 ^ k := by
  rw [Nat.lor_comm, Nat.mul_comm b (2 ^ k), ← Nat.mul_add_lt_is_or h b,
    Nat.add_comm, Nat.mul_comm]

theorem and_127_eq_mod (x : Nat) : x &&& 127 = x % 128 := by
  have h := Nat.and_pow_two_sub_one_eq_mod x 7
  norm_num at h
  exact h

theorem and_128_of_lt (x : Nat) (h : x < 128) : x &&& 128 = 0 := by
  have h1 : x &&& 2 ^ 7 = (x.testBit 7).toNat * 2 ^ 7 := Nat.and_two_pow x 7
  rw [Nat.testBit_lt_two_pow (by norm_num [h] : x < 2 ^ 7)] at h1
  simpa using h1

theorem add_128_and_128 (x : Nat) (h : x < 128) : (128 + x) &&& 128 = 128 := by
  have h1 : (128 + x) &&& 2 ^ 7 = ((128 + x).testBit 7).toNat * 2 ^ 7 :=
    Nat.and_two_pow (128 + x) 7
  have h2 : (128 + x).testBit 7 = !(x.testBit 7) := by
    have := Nat.testBit_two_pow_add_eq x 7
    norm_num at this ⊢
    exact this
  rw [h2, Nat.testBit_lt_two_pow (by norm_num [h] : x < 2 ^ 7)] at h1
  simpa using h1

theorem lor_128_mod_256 (m : Nat) : 128 ||| m % 256 = 128 + m % 128 := by
  have hsplit : m % 256 % 128 = m % 128 :=
    Nat.mod_mod_of_dvd m (by norm_num)
  rcases Nat.lt_or_ge (m % 256) 128 with hlt | hge
  · have h1 : (2 ^ 7 * 1 + m % 256) = 2 ^ 7 * 1 ||| m % 256 :=
      Nat.mul_add_lt_is_or (by simpa using hlt) 1
    have h2 : m % 128 = m % 256 := by omega
    simpa [h2] using h1.symm
  · have hub : m % 256 < 256 := Nat.mod_lt _ (by norm_num)
    have hy : m % 256 = 128 + m % 128 := by omega
    have h1 : (2 ^ 7 * 1 + m % 128) = 2 ^ 7 * 1 ||| m % 128 :=
      Nat.mul_add_lt_is_or (by have := Nat.mod_lt m (y := 128) (by norm_num); simpa using this) 1
    have h2 : (128 : Nat) ||| (128 ||| m % 128) = 128 ||| m % 128 := by
      rw [← Nat.lor_assoc]
      simp
    calc 128 ||| m % 256 = 128 ||| (128 + m % 128) := by rw [← hy]
      _ = 128 ||| (128 ||| m % 128) := by
          rw [show (128 : Nat) + m % 128 = 2 ^ 7 * 1 + m % 128 by norm_num, h1]
          norm_num
      _ = 128 ||| m % 128 := h2
      _ = 2 ^ 7 * 1 ||| m % 128 := by norm_num
      _ = 2 ^ 7 * 1 + m % 128 := h1.symm
      _ = 128 + m % 128 := by norm_num

/-! ### VarInt round-trip for non-negative values -/

theorem encodeLoop_length_le (m : Nat) : (encodeLoop m).length ≤ m + 1 := by
  induction m using Nat.strong_induction_on with
  | _ m ih =>
    rw [encodeLoop]
    by_cases h : 0x80 ≤ m
    · have hrec := ih (m / 128) (by omega)
      simp only [h, if_pos, List.length_cons]
      omega
    · simp [h]

theorem varIntLoop_cons (b : Nat) (t : List Nat) (value length : Nat) :
    varIntLoop (b :: t) value length =
      if 5 < length + 1 then .error .protocolError
      else if b &&& 0x80 = 0x80 then
        varIntLoop t (value ||| shlContribution b length) (length + 1)
      else .ok (value ||| shlContribution b length, t) := rfl

theorem varIntLoop_encodeLoop (m : Nat) :
    ∀ acc len rest, len ≤ 4 → m < 2 ^ (31 - 7 * len) → acc < 2 ^ (7 * len) →
      varIntLoop (encodeLoop m ++ rest) acc len =
        .ok (acc + m * 2 ^ (7 * len), rest) := by
  induction m using Nat.strong_induction_on with
  | _ m ih =>
    intro acc len rest hlen hm hacc
    rw [encodeLoop]
    by_cases h128 : 0x80 ≤ m
    · have hbyte : 128 ||| m % 256 = 128 + m % 128 := lor_128_mod_256 m
      have hm7 : m % 128 < 128 := Nat.mod_lt _ (by norm_num)
      have hlen3 : len ≤ 3 := by
        interval_cases len <;> omega
      have hpow : (2 : Nat) ^ (len * 7) ≤ 2 ^ 21 :=
        Nat.pow_le_pow_right (by norm_num) (by omega)
      have hsmall : m % 128 * 2 ^ (len * 7) < 2 ^ 32 := by
        calc m % 128 * 2 ^ (len * 7) ≤ 128 * 2 ^ 21 :=
              Nat.mul_le_mul (by omega) hpow
          _ < 2 ^ 32 := by norm_num
      have hcontrib :
          shlContribution (128 ||| m % 256) len = m % 128 * 2 ^ (7 * len) := by
        unfold shlContribution
        rw [if_neg (by omega : ¬ 32 ≤ len * 7), Nat.shiftLeft_eq, hbyte,
          and_127_eq_mod]
        rw [(by omega : (128 + m % 128) % 128 = m % 128),
          Nat.mod_eq_of_lt hsmall, Nat.mul_comm len 7]
      have hcc : (128 ||| m % 256) &&& 128 = 128 := by
        rw [hbyte]
        exact add_128_and_128 _ (by omega)
      rw [if_pos h128, List.cons_append, varIntLoop_cons,
        if_neg (by omega : ¬ 5 < len + 1), if_pos hcc, hcontrib,
        lor_disjoint _ _ _ hacc]
      have hrec := ih (m / 128) (by omega)
        (acc + m % 128 * 2 ^ (7 * len)) (len + 1) rest (by omega)
        (by interval_cases len <;> norm_num at hm ⊢ <;> omega)
        (by
          have h1 : acc + m % 128 * 2 ^ (7 * len) <
              2 ^ (7 * len) + 127 * 2 ^ (7 * len) := by
            have := Nat.mul_le_mul_right (k := 2 ^ (7 * len)) (by omega : m % 128 ≤ 127)
            omega
          have h2 : (2 : Nat) ^ (7 * len) + 127 * 2 ^ (7 * len) =
              2 ^ (7 * (len + 1)) := by
            rw [pow_mul, pow_mul]
            ring
          omega)
      rw [hrec]
      congr 2
      have hsplit : m = 128 * (m / 128) + m % 128 := (Nat.div_add_mod m 128).symm
      calc acc + m % 128 * 2 ^ (7 * len) + m / 128 * 2 ^ (7 * (len + 1)) =
            acc + (m % 128 + 128 * (m / 128)) * 2 ^ (7 * len) := by
              rw [pow_mul, pow_mul]
              ring
        _ = acc + m * 2 ^ (7 * len) := by rw [Nat.add_comm (m % 128), ← hsplit]
    · have hm128 : m < 128 := by omega
      have hcontrib : shlContribution (m % 256) len = m * 2 ^ (7 * len) := by
        unfold shlContribution
        have hmod : m % 256 = m := Nat.mod_eq_of_lt (by omega)
        have hsmall : m * 2 ^ (len * 7) < 2 ^ 32 := by
          interval_cases len <;> norm_num at hm ⊢ <;> omega
        rw [if_neg (by omega : ¬ 32 ≤ len * 7), Nat.shiftLeft_eq, hmod,
          and_127_eq_mod, Nat.mod_eq_of_lt hm128, Nat.mod_eq_of_lt hsmall,
          Nat.mul_comm len 7]
      have hcc : ¬ (m % 256) &&& 128 = 128 := by
        rw [Nat.mod_eq_of_lt (by omega : m < 256), and_128_of_lt m hm128]
        norm_num
      rw [if_neg h128, List.cons_append, varIntLoop_cons,
        if_neg (by omega : ¬ 5 < len + 1), if_neg hcc, hcontrib,
        lor_disjoint _ _ _ hacc, List.nil_append]

theorem var_int_encode_ofNat (n : Nat) :
    var_int_encode (n : Int) = encodeLoop n := by
  unfold var_int_encode
  by_cases h : 0x80 ≤ n
  · rw [if_pos (by exact_mod_cast h), Int.toNat_natCast]
  · rw [if_neg (by exact_mod_cast h), encodeLoop, if_neg h]
    congr 1

theorem i32ofBits_of_lt (v : Nat) (h : v < 2 ^ 31) : i32ofBits v = (v : Int) := by
  unfold i32ofBits
  rw [if_pos h]

/-- Decoding an encoded non-negative `i32` yields the value back and
consumes exactly the encoded bytes. -/
theorem var_int_read_encode (n : Nat) (rest : List Nat) (h : n < 2 ^ 31) :
    var_int_read (var_int_encode (n : Int) ++ rest) = .ok ((n : Int), rest) := by
  rw [var_int_encode_ofNat]
  unfold var_int_read
  rw [varIntLoop_encodeLoop n 0 0 rest (by omega) (by simpa using h) (by norm_num)]
  simp [i32ofBits_of_lt n h]

/-! ### Decoder invariants -/

theorem shlContribution_lt (b length : Nat) : shlContribution b length < 2 ^ 32 := by
  unfold shlContribution
  split
  · norm_num
  · exact Nat.mod_lt _ (by norm_num)

theorem varIntLoop_value_lt (s : List Nat) :
    ∀ value length v rest, value < 2 ^ 32 →
      varIntLoop s value length = .ok (v, rest) → v < 2 ^ 32 := by
  induction s with
  | nil =>
    intro value length v rest hv h
    exact absurd h (by simp [varIntLoop])
  | cons b t ih =>
    intro value length v rest hv h
    rw [varIntLoop_cons] at h
    by_cases h5 : 5 < length + 1
    · rw [if_pos h5] at h
      exact absurd h (by simp)
    · rw [if_neg h5] at h
      have hv2 : value ||| shlContribution b length < 2 ^ 32 :=
        Nat.or_lt_two_pow hv (shlContribution_lt b length)
      by_cases hc : b &&& 0x80 = 0x80
      · rw [if_pos hc] at h
        exact ih _ _ _ _ hv2 h
      · rw [if_neg hc] at h
        simp only [Except.ok.injEq, Prod.mk.injEq] at h
        rw [← h.1]
        exact hv2

theorem varIntLoop_consumed (s : List Nat) :
    ∀ value length v rest, varIntLoop s value length = .ok (v, rest) →
      ∃ k, k + length ≤ 5 ∧ rest = s.drop k := by
  induction s with
  | nil =>
    intro value length v rest h
    exact absurd h (by simp [varIntLoop])
  | cons b t ih =>
    intro value length v rest h
    rw [varIntLoop_cons] at h
    by_cases h5 : 5 < length + 1
    · rw [if_pos h5] at h
      exact absurd h (by simp)
    · rw [if_neg h5] at h
      by_cases hc : b &&& 0x80 = 0x80
      · rw [if_pos hc] at h
        obtain ⟨k, hk, hrest⟩ := ih _ _ _ _ h
        exact ⟨k + 1, by omega, by simpa using hrest⟩
      · rw [if_neg hc] at h
        simp only [Except.ok.injEq, Prod.mk.injEq] at h
        exact ⟨1, by omega, by simp [h.2]⟩

theorem var_int_read_range (s : List Nat) (v : Int) (rest : List Nat)
    (h : var_int_read s = .ok (v, rest)) : -(2 ^ 31) ≤ v ∧ v < 2 ^ 31 := by
  unfold var_int_read at h
  cases hloop : varIntLoop s 0 0 with
  | error e =>
    rw [hloop] at h
    exact absurd h (by simp)
  | ok p =>
    obtain ⟨w, r⟩ := p
    rw [hloop] at h
    simp only [Except.ok.injEq, Prod.mk.injEq] at h
    have hw := varIntLoop_value_lt s 0 0 w r (by norm_num) hloop
    rw [← h.1]
    unfold i32ofBits
    split <;> push_cast <;> omega

theorem var_int_read_consumed (s : List Nat) (v : Int) (rest : List Nat)
    (h : var_int_read s = .ok (v, rest)) : ∃ k, k ≤ 5 ∧ rest = s.drop k := by
  unfold var_int_read at h
  cases hloop : varIntLoop s 0 0 with
  | error e =>
    rw [hloop] at h
    exact absurd h (by simp)
  | ok p =>
    obtain ⟨w, r⟩ := p
    rw [hloop] at h
    simp only [Except.ok.injEq, Prod.mk.injEq] at h
    obtain ⟨k, hk, hrest⟩ := varIntLoop_consumed s 0 0 w r hloop
    exact ⟨k, by omega, by rw [← h.2, hrest]⟩

/-! ### Behavior of `get_server_json` after well-formed headers -/

theorem get_server_json_headers (L I n : Nat) (body : List Nat)
    (hL : L < 2 ^ 31) (hI : I < 2 ^ 31) (hn : n < 2 ^ 31) :
    get_server_json
        (var_int_encode (L : Int) ++ var_int_encode (I : Int) ++
          var_int_encode (n : Int) ++ body) =
      if MAX_PACKET_SIZE < n then .error .payloadTooLarge
      else if body.length < n then .error .ioError
      else
        match utf8Decode (body.take n) with
        | none => .error .encodingError
        | some text =>
          match jsonParse text with
          | none => .error .deserializationError
          | some j => .ok (jsonToString j) := by
  unfold get_server_json
  simp only [List.append_assoc, var_int_read_encode L _ hL,
    var_int_read_encode I _ hI, var_int_read_encode n _ hn]
  have h32 : ((n : Int) % 2 ^ 32).toNat = n := by omega
  have h64 : ((n : Int) % 2 ^ 64).toNat = n := by omega
  rw [h32, h64]

/-! ### Claims -/

/-- C1: the claim that `decode(encode(v)) == v` for every signed 32-bit
integer `v`, including negative `v`, fails on the code: the encoder's
`value >= 0x80` loop guard with an arithmetic (`i32`) right shift makes
it emit the single byte `0xFF` for `-1`; that byte carries the
continuation bit, so the decoder keeps reading past the encoding and
hits the end of the stream instead of returning `-1`. -/
theorem var_int_encode_neg_one_breaks_roundtrip :
    var_int_encode (-1) = [0xFF] ∧
      var_int_read (var_int_encode (-1)) = .error .ioError :=
  ⟨rfl, rfl⟩

/-- C7: the claim that `var_int_encode(v)` is a minimal, well-terminated
encoding for every signed 32-bit `v` fails on the code: for `-1` the
encoder emits the single byte `0xFF`, whose final (only) byte has the
continuation bit `0x80` set. -/
theorem var_int_encode_neg_one_not_wellformed :
    var_int_encode (-1) = [0xFF] ∧
      varIntWellFormed (var_int_encode (-1)) = false :=
  ⟨rfl, rfl⟩

/-- Supporting fact for C1/C7: for the non-negative range the encoder is
correct — decoding an encoding yields the value back and consumes
exactly the encoded bytes (used here to show the defect is confined to
negative inputs). -/
theorem var_int_roundtrip_nonneg (n : Nat) (h : n < 2 ^ 31) :
    var_int_read (var_int_encode (n : Int)) = .ok ((n : Int), []) := by
  have := var_int_read_encode n [] h
  simpa using this

/-- C4: a stream whose first six bytes all carry the continuation bit
makes `var_int_read` return the malformed-VarInt (protocol) error, and
a successful decode never consumes more than six bytes of the stream. -/
theorem var_int_read_overflow_guard :
    (∀ s : List Nat, 6 ≤ s.length →
      (∀ i, i < 6 → s.getD i 0 &&& 0x80 = 0x80) →
      var_int_read s = .error .protocolError) ∧
    (∀ (s : List Nat) (v : Int) (rest : List Nat),
      var_int_read s = .ok (v, rest) → ∃ k, k ≤ 6 ∧ rest = s.drop k) := by
  constructor
  · intro s hlen hbytes
    match s, hlen with
    | b0 :: b1 :: b2 :: b3 :: b4 :: b5 :: t, _ =>
      have h0 := hbytes 0 (by omega)
      have h1 := hbytes 1 (by omega)
      have h2 := hbytes 2 (by omega)
      have h3 := hbytes 3 (by omega)
      have h4 := hbytes 4 (by omega)
      have h5 := hbytes 5 (by omega)
      simp only [List.getD_cons_zero, List.getD_cons_succ] at h0 h1 h2 h3 h4 h5
      unfold var_int_read
      rw [varIntLoop_cons, if_neg (by omega), if_pos h0,
        varIntLoop_cons, if_neg (by omega), if_pos h1,
        varIntLoop_cons, if_neg (by omega), if_pos h2,
        varIntLoop_cons, if_neg (by omega), if_pos h3,
        varIntLoop_cons, if_neg (by omega), if_pos h4,
        varIntLoop_cons, if_pos (by omega)]
  · intro s v rest h
    obtain ⟨k, hk, hrest⟩ := var_int_read_consumed s v rest h
    exact ⟨k, by omega, hrest⟩

/-- C4 witness: six continuation bytes yield the protocol error, and a
concrete successful decode consumes at most six bytes. -/
theorem var_int_read_overflow_guard_witness :
    var_int_read [0x80, 0x80, 0x80, 0x80, 0x80, 0x80] =
        .error .protocolError ∧
      ∃ k, k ≤ 6 ∧ ([] : List Nat) = [0x25].drop k :=
  ⟨var_int_read_overflow_guard.1 [0x80, 0x80, 0x80, 0x80, 0x80, 0x80]
      (by norm_num) (by decide),
    var_int_read_overflow_guard.2 [0x25] 0x25 [] rfl⟩

/-- C8: the decoder is shift-safe — the checked-shift contribution
always equals the untrapped modular value `(b & 0x7F) << (7·length)
mod 2^32`, a shift amount of 32 or more contributes exactly zero, and
every successfully decoded value is a genuine `i32` (no accumulator
overflow). -/
theorem var_int_read_shift_safe :
    (∀ b length : Nat, shlContribution b length =
        (b &&& 0x7F) * 2 ^ (length * 7) % 2 ^ 32) ∧
    (∀ b length : Nat, 32 ≤ length * 7 → shlContribution b length = 0) ∧
    (∀ (s : List Nat) (v : Int) (rest : List Nat),
      var_int_read s = .ok (v, rest) → -(2 ^ 31) ≤ v ∧ v < 2 ^ 31) := by
  refine ⟨?_, ?_, fun s v rest h => var_int_read_range s v rest h⟩
  · intro b length
    unfold shlContribution
    split
    · rename_i h
      have hdvd : (2 : Nat) ^ 32 ∣ (b &&& 0x7F) * 2 ^ (length * 7) :=
        Dvd.dvd.mul_left (pow_dvd_pow 2 h) _
      exact (Nat.mod_eq_zero_of_dvd hdvd).symm
    · rw [Nat.shiftLeft_eq]
  · intro b length h
    unfold shlContribution
    rw [if_pos h]

/-- C8 witness: the sixth byte's shift amount (35) contributes zero, and
a concrete decode stays in the `i32` range. -/
theorem var_int_read_shift_safe_witness :
    shlContribution 0x7F 5 = (0x7F &&& 0x7F) * 2 ^ (5 * 7) % 2 ^ 32 ∧
      shlContribution 0x7F 5 = 0 ∧
      (-(2 ^ 31) ≤ (37 : Int) ∧ (37 : Int) < 2 ^ 31) :=
  ⟨var_int_read_shift_safe.1 0x7F 5,
    var_int_read_shift_safe.2.1 0x7F 5 (by norm_num),
    var_int_read_shift_safe.2.2 [0x25] 37 [] rfl⟩

/-- C9: whenever the third VarInt of the response (the declared JSON
string length) decodes to a negative `i32`, `get_server_json` fails
with the "response too large" error: the `u32` reinterpretation of a
negative `i32` is at least `2^31`, which exceeds the 50 MiB cap, so the
guard fires before any buffer is sized from the negative value. -/
theorem get_server_json_negative_length_rejected
    (stream s1 s2 s3 : List Nat) (L I v : Int)
    (hL : var_int_read stream = .ok (L, s1))
    (hI : var_int_read s1 = .ok (I, s2))
    (hv : var_int_read s2 = .ok (v, s3))
    (hneg : v < 0) :
    get_server_json stream = .error .payloadTooLarge := by
  have hrange := var_int_read_range s2 v s3 hv
  unfold get_server_json
  simp only [hL, hI, hv]
  have hcap : MAX_PACKET_SIZE < (v % 2 ^ 32).toNat := by
    unfold MAX_PACKET_SIZE
    omega
  rw [if_pos hcap]

/-- C9 witness: a response whose string-length VarInt is
`FF FF FF FF 0F` (the `i32` value `-1`) is rejected as too large. -/
theorem get_server_json_negative_length_rejected_witness :
    get_server_json [0, 0, 0xFF, 0xFF, 0xFF, 0xFF, 0x0F] =
      .error .payloadTooLarge :=
  get_server_json_negative_length_rejected
    [0, 0, 0xFF, 0xFF, 0xFF, 0xFF, 0x0F]
    [0, 0xFF, 0xFF, 0xFF, 0xFF, 0x0F]
    [0xFF, 0xFF, 0xFF, 0xFF, 0x0F] [] 0 0 (-1)
    rfl rfl (by rfl) (by norm_num)

/-- C3: a response whose declared (non-negative) JSON string length
exceeds 50 MiB is rejected with the "response too large" error no
matter what follows the headers — in particular before any body byte
is read — while a declared length at or below 50 MiB never produces
that error. -/
theorem get_server_json_oversized_rejected :
    (∀ (L I n : Nat) (body : List Nat),
      L < 2 ^ 31 → I < 2 ^ 31 → n < 2 ^ 31 → MAX_PACKET_SIZE < n →
      get_server_json (var_int_encode (L : Int) ++ var_int_encode (I : Int) ++
          var_int_encode (n : Int) ++ body) = .error .payloadTooLarge) ∧
    (∀ (L I n : Nat) (body : List Nat),
      L < 2 ^ 31 → I < 2 ^ 31 → n < 2 ^ 31 → n ≤ MAX_PACKET_SIZE →
      get_server_json (var_int_encode (L : Int) ++ var_int_encode (I : Int) ++
          var_int_encode (n : Int) ++ body) ≠ .error .payloadTooLarge) := by
  constructor
  · intro L I n body hL hI hn hbig
    rw [get_server_json_headers L I n body hL hI hn, if_pos hbig]
  · intro L I n body hL hI hn hsmall
    rw [get_server_json_headers L I n body hL hI hn, if_neg (by omega)]
    split
    · simp
    · split
      · simp
      · split <;> simp

/-- C3 witness: a declared length of 50 MiB + 1 is rejected with no
body present at all; a declared length of 0 is not rejected as too
large. -/
theorem get_server_json_oversized_rejected_witness :
    get_server_json (var_int_encode ((52428801 : Nat) : Int) ++
        var_int_encode ((52428801 : Nat) : Int) ++
        var_int_encode ((52428801 : Nat) : Int) ++ []) =
      .error .payloadTooLarge ∧
    get_server_json (var_int_encode ((0 : Nat) : Int) ++
        var_int_encode ((0 : Nat) : Int) ++
        var_int_encode ((0 : Nat) : Int) ++ []) ≠
      .error .payloadTooLarge :=
  ⟨get_server_json_oversized_rejected.1 52428801 52428801 52428801 []
      (by norm_num) (by norm_num) (by norm_num) (by norm_num [MAX_PACKET_SIZE]),
    get_server_json_oversized_rejected.2 0 0 0 []
      (by norm_num) (by norm_num) (by norm_num) (by norm_num [MAX_PACKET_SIZE])⟩

/-- For realistic payload lengths `var_int_pack` is the VarInt of the
length followed by the data. -/
theorem var_int_pack_eq (data : List Nat) (h : data.length < 2 ^ 31) :
    var_int_pack data = var_int_encode ((data.length : Nat) : Int) ++ data := by
  unfold var_int_pack
  rw [Nat.mod_eq_of_lt (by omega : data.length < 2 ^ 32), i32ofBits_of_lt _ h]

/-- C5: `status_packet_builder` is a pure function producing exactly the
handshake frame `VarInt(len) | 0x00 | VarInt(0) | VarInt(hostlen) +
hostbytes | port (2 bytes big-endian) | 0x01` immediately followed by
the status-request frame `VarInt(1) | 0x00`; at `("example.com",
25565)` it yields one fixed byte sequence. -/
theorem status_packet_builder_layout (hostname : String) (port : Nat)
    (hhost : (utf8Encode hostname).length ≤ 255) :
    status_packet_builder hostname port =
      var_int_encode (((5 +
            (var_int_encode (((utf8Encode hostname).length : Nat) : Int)).length +
            (utf8Encode hostname).length : Nat) : Nat) : Int) ++
        [0x00] ++ var_int_encode 0 ++
        (var_int_encode (((utf8Encode hostname).length : Nat) : Int) ++
          utf8Encode hostname) ++
        [port / 256 % 256, port % 256] ++ [0x01] ++
        (var_int_encode 1 ++ [0x00]) ∧
    status_packet_builder "example.com" 25565 =
      [17, 0, 0, 11, 101, 120, 97, 109, 112, 108, 101, 46, 99, 111, 109,
        99, 221, 1, 1, 0] := by
  constructor
  · have he : (var_int_encode (((utf8Encode hostname).length : Nat) : Int)).length ≤ 256 := by
      rw [var_int_encode_ofNat]
      have := encodeLoop_length_le (utf8Encode hostname).length
      omega
    unfold status_packet_builder
    rw [var_int_pack_eq (utf8Encode hostname) (by omega)]
    rw [var_int_pack_eq [0x00] (by norm_num)]
    rw [var_int_pack_eq _ (by
      simp only [List.length_append, List.length_cons, List.length_nil]
      omega)]
    have hblen : ([0x00, 0x00] ++
        (var_int_encode (((utf8Encode hostname).length : Nat) : Int) ++
          utf8Encode hostname) ++
        [port / 256 % 256, port % 256] ++ [0x01]).length =
        5 + (var_int_encode (((utf8Encode hostname).length : Nat) : Int)).length +
          (utf8Encode hostname).length := by
      simp only [List.length_append, List.length_cons, List.length_nil]
      omega
    rw [hblen]
    simp [List.append_assoc, show var_int_encode 0 = [0x00] from rfl,
      show var_int_encode 1 = [0x01] from rfl]
  · rfl

/-- C5 witness: the fixed byte sequence at `("example.com", 25565)`. -/
theorem status_packet_builder_layout_witness :
    status_packet_builder "example.com" 25565 =
      [17, 0, 0, 11, 101, 120, 97, 109, 112, 108, 101, 46, 99, 111, 109,
        99, 221, 1, 1, 0] :=
  (status_packet_builder_layout "example.com" 25565 (by decide)).2

/-! ### Deserializer case lemmas -/

theorem getString_errors (j : Json) :
    getString j = .error .deserializationError ∨ ∃ s, getString j = .ok s := by
  cases j <;> simp [getString]

theorem getI64_errors (j : Json) :
    getI64 j = .error .deserializationError ∨ ∃ n, getI64 j = .ok n := by
  cases j with
  | num n =>
    by_cases h : -(2 ^ 63) ≤ n ∧ n < 2 ^ 63
    · exact Or.inr ⟨n, by simp only [getI64]; rw [if_pos h]⟩
    · exact Or.inl (by simp only [getI64]; rw [if_neg h])
  | null => exact Or.inl rfl
  | bool b => exact Or.inl rfl
  | str s => exact Or.inl rfl
  | arr xs => exact Or.inl rfl
  | obj fields => exact Or.inl rfl

theorem deserializeDescription_errors (j : Json) :
    deserializeDescription j = .error .deserializationError ∨
      ∃ d, deserializeDescription j = .ok d := by
  cases j with
  | null => exact Or.inl rfl
  | bool b => exact Or.inl rfl
  | num n => exact Or.inl rfl
  | str s => exact Or.inl rfl
  | arr xs => exact Or.inl rfl
  | obj fields =>
  ?_
  case obj =>
  cases h : objLookup "text" fields with
  | none => exact Or.inl (by simp [deserializeDescription, h])
  | some t =>
    rcases getString_errors t with he | ⟨s, hs⟩
    · exact Or.inl (by simp [deserializeDescription, h, he, Except.map])
    · exact Or.inr ⟨⟨s⟩, by simp [deserializeDescription, h, hs, Except.map]⟩

theorem deserializeSample_errors (j : Json) :
    deserializeSample j = .error .deserializationError ∨
      ∃ x, deserializeSample j = .ok x := by
  cases j with
  | null => exact Or.inl rfl
  | bool b => exact Or.inl rfl
  | num n => exact Or.inl rfl
  | str s => exact Or.inl rfl
  | arr xs => exact Or.inl rfl
  | obj fields =>
  ?_
  case obj =>
  cases hi : objLookup "id" fields with
  | none => exact Or.inl (by simp [deserializeSample, hi])
  | some i =>
    cases hn : objLookup "name" fields with
    | none => exact Or.inl (by simp [deserializeSample, hi, hn])
    | some n =>
      rcases getString_errors i with hei | ⟨si, hsi⟩ <;>
        rcases getString_errors n with hen | ⟨sn, hsn⟩
      · exact Or.inl (by simp [deserializeSample, hi, hn, hei, hen])
      · exact Or.inl (by simp [deserializeSample, hi, hn, hei, hsn])
      · exact Or.inl (by simp [deserializeSample, hi, hn, hsi, hen])
      · exact Or.inr ⟨⟨si, sn⟩, by simp [deserializeSample, hi, hn, hsi, hsn]⟩

theorem deserializeSampleList_errors (xs : List Json) :
    deserializeSampleList xs = .error .deserializationError ∨
      ∃ ss, deserializeSampleList xs = .ok ss := by
  induction xs with
  | nil => exact Or.inr ⟨[], rfl⟩
  | cons j t ih =>
    rcases deserializeSample_errors j with he | ⟨x, hx⟩
    · rcases ih with ht | ⟨ss, hss⟩
      · exact Or.inl (by simp [deserializeSampleList, he, ht])
      · exact Or.inl (by simp [deserializeSampleList, he, hss])
    · rcases ih with ht | ⟨ss, hss⟩
      · exact Or.inl (by simp [deserializeSampleList, hx, ht])
      · exact Or.inr ⟨x :: ss, by simp [deserializeSampleList, hx, hss]⟩

theorem deserializePlayers_errors (j : Json) :
    deserializePlayers j = .error .deserializationError ∨
      ∃ p, deserializePlayers j = .ok p := by
  cases j with
  | null => exact Or.inl rfl
  | bool b => exact Or.inl rfl
  | num n => exact Or.inl rfl
  | str s => exact Or.inl rfl
  | arr xs => exact Or.inl rfl
  | obj fields =>
  ?_
  case obj =>
  have hsample :
      (match objLookup "sample" fields with
        | none => Except.ok ([] : List Sample)
        | some (.arr xs) => deserializeSampleList xs
        | some _ => Except.error QueryError.deserializationError) =
          .error .deserializationError ∨
      ∃ ss, (match objLookup "sample" fields with
        | none => Except.ok ([] : List Sample)
        | some (.arr xs) => deserializeSampleList xs
        | some _ => Except.error QueryError.deserializationError) = .ok ss := by
    cases hs : objLookup "sample" fields with
    | none => exact Or.inr ⟨[], rfl⟩
    | some sj =>
      cases sj <;> try exact Or.inl rfl
      rename_i xs
      exact deserializeSampleList_errors xs
  cases hm : objLookup "max" fields with
  | none => exact Or.inl (by simp [deserializePlayers, hm])
  | some m =>
    cases ho : objLookup "online" fields with
    | none => exact Or.inl (by simp [deserializePlayers, hm, ho])
    | some o =>
      rcases getI64_errors m with hem | ⟨nm, hnm⟩ <;>
        rcases getI64_errors o with heo | ⟨no, hno⟩ <;>
        rcases hsample with hes | ⟨ss, hss⟩
      · exact Or.inl (by simp [deserializePlayers, hm, ho, hem, heo, hes])
      · exact Or.inl (by simp [deserializePlayers, hm, ho, hem, heo, hss])
      · exact Or.inl (by simp [deserializePlayers, hm, ho, hem, hno, hes])
      · exact Or.inl (by simp [deserializePlayers, hm, ho, hem, hno, hss])
      · exact Or.inl (by simp [deserializePlayers, hm, ho, hnm, heo, hes])
      · exact Or.inl (by simp [deserializePlayers, hm, ho, hnm, heo, hss])
      · exact Or.inl (by simp [deserializePlayers, hm, ho, hnm, hno, hes])
      · exact Or.inr ⟨⟨nm, no, ss⟩,
          by simp [deserializePlayers, hm, ho, hnm, hno, hss]⟩

theorem deserializeVersion_errors (j : Json) :
    deserializeVersion j = .error .deserializationError ∨
      ∃ v, deserializeVersion j = .ok v := by
  cases j with
  | null => exact Or.inl rfl
  | bool b => exact Or.inl rfl
  | num n => exact Or.inl rfl
  | str s => exact Or.inl rfl
  | arr xs => exact Or.inl rfl
  | obj fields =>
  ?_
  case obj =>
  cases hn : objLookup "name" fields with
  | none => exact Or.inl (by simp [deserializeVersion, hn])
  | some n =>
    cases hp : objLookup "protocol" fields with
    | none => exact Or.inl (by simp [deserializeVersion, hn, hp])
    | some p =>
      rcases getString_errors n with hen | ⟨sn, hsn⟩ <;>
        rcases getI64_errors p with hep | ⟨np, hnp⟩
      · exact Or.inl (by simp [deserializeVersion, hn, hp, hen, hep])
      · exact Or.inl (by simp [deserializeVersion, hn, hp, hen, hnp])
      · exact Or.inl (by simp [deserializeVersion, hn, hp, hsn, hep])
      · exact Or.inr ⟨⟨sn, np⟩, by simp [deserializeVersion, hn, hp, hsn, hnp]⟩

theorem descriptionField_errors (fields : List (String × Json)) :
    descriptionField fields = .error .deserializationError ∨
      ∃ d, descriptionField fields = .ok d := by
  unfold descriptionField
  cases h : objLookup "description" fields with
  | none => exact Or.inl rfl
  | some d => exact deserializeDescription_errors d

theorem faviconField_errors (fields : List (String × Json)) :
    faviconField fields = .error .deserializationError ∨
      ∃ s, faviconField fields = .ok s := by
  unfold faviconField
  cases h : objLookup "favicon" fields with
  | none => exact Or.inr ⟨"", rfl⟩
  | some f => exact getString_errors f

theorem playersField_errors (fields : List (String × Json)) :
    playersField fields = .error .deserializationError ∨
      ∃ p, playersField fields = .ok p := by
  unfold playersField
  cases h : objLookup "players" fields with
  | none => exact Or.inl rfl
  | some p => exact deserializePlayers_errors p

/-- Any erroring component makes the whole record deserialization fail
with the deserialization error. -/
theorem deserializeServerStatus_error_of_description
    (fields : List (String × Json))
    (h : descriptionField fields = .error .deserializationError) :
    deserializeServerStatus (.obj fields) = .error .deserializationError := by
  simp [deserializeServerStatus, h]

theorem deserializeServerStatus_error_of_players
    (fields : List (String × Json))
    (h : playersField fields = .error .deserializationError) :
    deserializeServerStatus (.obj fields) = .error .deserializationError := by
  rcases descriptionField_errors fields with hd | ⟨d, hd⟩ <;>
    rcases faviconField_errors fields with hf | ⟨f, hf⟩ <;>
    simp [deserializeServerStatus, h, hd, hf]

theorem deserializeServerStatus_error_of_version
    (fields : List (String × Json))
    (h : versionField fields = .error .deserializationError) :
    deserializeServerStatus (.obj fields) = .error .deserializationError := by
  rcases descriptionField_errors fields with hd | ⟨d, hd⟩ <;>
    rcases faviconField_errors fields with hf | ⟨f, hf⟩ <;>
    rcases playersField_errors fields with hp | ⟨p, hp⟩ <;>
    simp [deserializeServerStatus, h, hd, hf, hp]

/-- C6: deserializing a JSON object with `favicon` and `players.sample`
entirely absent succeeds, defaulting `favicon` to `""` and
`players.sample` to `[]` while taking all other fields from the JSON;
an object missing any required dotted field yields the deserialization
error, as does text that is not valid JSON at all. -/
theorem parse_json_requires_fields_and_defaults :
    (∀ (dtext vname : String) (pmax ponline vprot : Int),
      -(2 ^ 63) ≤ pmax ∧ pmax < 2 ^ 63 →
      -(2 ^ 63) ≤ ponline ∧ ponline < 2 ^ 63 →
      -(2 ^ 63) ≤ vprot ∧ vprot < 2 ^ 63 →
      deserializeServerStatus (.obj
          [("description", .obj [("text", .str dtext)]),
           ("players", .obj [("max", .num pmax), ("online", .num ponline)]),
           ("version", .obj [("name", .str vname), ("protocol", .num vprot)])]) =
        .ok ⟨⟨dtext⟩, "", ⟨pmax, ponline, []⟩, ⟨vname, vprot⟩⟩) ∧
    (∀ fields : List (String × Json),
      pathMissing fields "description" "text" ∨
        pathMissing fields "players" "max" ∨
        pathMissing fields "players" "online" ∨
        pathMissing fields "version" "name" ∨
        pathMissing fields "version" "protocol" →
      deserializeServerStatus (.obj fields) = .error .deserializationError) ∧
    (∀ s : String, jsonParse s = none →
      parse_json s = .error .deserializationError) := by
  refine ⟨?_, ?_, ?_⟩
  · intro dtext vname pmax ponline vprot h1 h2 h3
    simp [deserializeServerStatus, descriptionField, faviconField,
      playersField, versionField, objLookup, deserializeDescription,
      deserializePlayers, deserializeVersion, getString, getI64,
      Except.map, h1, h2, h3]
    rw [if_pos (show -9223372036854775808 ≤ pmax ∧
          pmax < 9223372036854775808 by omega),
      if_pos (show -9223372036854775808 ≤ ponline ∧
          ponline < 9223372036854775808 by omega),
      if_pos (show -9223372036854775808 ≤ vprot ∧
          vprot < 9223372036854775808 by omega)]
  · intro fields h
    rcases h with h | h | h | h | h
    · unfold pathMissing at h
      apply deserializeServerStatus_error_of_description
      unfold descriptionField
      cases hd : objLookup "description" fields with
      | none => rfl
      | some d =>
        rw [hd] at h
        cases d with
        | obj inner => simp [deserializeDescription, h]
        | null => exact h.elim
        | bool b => exact h.elim
        | num n => exact h.elim
        | str s => exact h.elim
        | arr xs => exact h.elim
    · unfold pathMissing at h
      apply deserializeServerStatus_error_of_players
      unfold playersField
      cases hp : objLookup "players" fields with
      | none => rfl
      | some p =>
        rw [hp] at h
        cases p with
        | obj inner => simp [deserializePlayers, h]
        | null => exact h.elim
        | bool b => exact h.elim
        | num n => exact h.elim
        | str s => exact h.elim
        | arr xs => exact h.elim
    · unfold pathMissing at h
      apply deserializeServerStatus_error_of_players
      unfold playersField
      cases hp : objLookup "players" fields with
      | none => rfl
      | some p =>
        rw [hp] at h
        cases p with
        | obj inner =>
          cases hm : objLookup "max" inner with
          | none => simp [deserializePlayers, hm]
          | some m => simp [deserializePlayers, hm, h]
        | null => exact h.elim
        | bool b => exact h.elim
        | num n => exact h.elim
        | str s => exact h.elim
        | arr xs => exact h.elim
    · unfold pathMissing at h
      apply deserializeServerStatus_error_of_version
      unfold versionField
      cases hv : objLookup "version" fields with
      | none => rfl
      | some v =>
        rw [hv] at h
        cases v with
        | obj inner => simp [deserializeVersion, h]
        | null => exact h.elim
        | bool b => exact h.elim
        | num n => exact h.elim
        | str s => exact h.elim
        | arr xs => exact h.elim
    · unfold pathMissing at h
      apply deserializeServerStatus_error_of_version
      unfold versionField
      cases hv : objLookup "version" fields with
      | none => rfl
      | some v =>
        rw [hv] at h
        cases v with
        | obj inner =>
          cases hn : objLookup "name" inner with
          | none => simp [deserializeVersion, hn]
          | some n => simp [deserializeVersion, hn, h]
        | null => exact h.elim
        | bool b => exact h.elim
        | num n => exact h.elim
        | str s => exact h.elim
        | arr xs => exact h.elim
  · intro s h
    simp [parse_json, h]

/-- C6 witness: a concrete object without `favicon` and without
`players.sample` deserializes with the defaults; the empty object and
non-JSON text are rejected. -/
theorem parse_json_requires_fields_and_defaults_witness :
    deserializeServerStatus (.obj
        [("description", .obj [("text", .str "hi")]),
         ("players", .obj [("max", .num 150), ("online", .num 196)]),
         ("version", .obj [("name", .str "V"), ("protocol", .num 758)])]) =
      .ok ⟨⟨"hi"⟩, "", ⟨150, 196, []⟩, ⟨"V", 758⟩⟩ ∧
    deserializeServerStatus (.obj []) = .error .deserializationError ∧
    parse_json "nope" = .error .deserializationError :=
  ⟨parse_json_requires_fields_and_defaults.1 "hi" "V" 150 196 758
      (by norm_num) (by norm_num) (by norm_num),
    parse_json_requires_fields_and_defaults.2.1 [] (Or.inl trivial),
    parse_json_requires_fields_and_defaults.2.2 "nope" rfl⟩

/-- Unknown keys in front of an association list do not affect lookups
of other keys. -/
theorem objLookup_append_of_not_mem (k : String)
    (extras fields : List (String × Json))
    (h : ∀ p ∈ extras, p.1 ≠ k) :
    objLookup k (extras ++ fields) = objLookup k fields := by
  induction extras with
  | nil => rfl
  | cons p t ih =>
    obtain ⟨k2, v⟩ := p
    have hk : k2 ≠ k := h (k2, v) (List.mem_cons_self _ _)
    simp only [List.cons_append, objLookup]
    rw [if_neg hk]
    exact ih fun q hq => h q (List.mem_cons_of_mem _ hq)

/-- C10: deserialization ignores fields outside the schema — adding
arbitrary extra keys (disjoint from the schema keys) to a status
object, or extra keys such as formatting data inside `description`,
leaves the deserialization result unchanged. -/
theorem deserializeServerStatus_ignores_unknown
    (extras fields dextras dfields : List (String × Json))
    (h : ∀ p ∈ extras,
      p.1 ∉ (["description", "favicon", "players", "version"] : List String))
    (hd : ∀ p ∈ dextras, p.1 ≠ "text") :
    deserializeServerStatus (.obj (extras ++ fields)) =
      deserializeServerStatus (.obj fields) ∧
    deserializeDescription (.obj (dextras ++ dfields)) =
      deserializeDescription (.obj dfields) := by
  constructor
  · have hD : descriptionField (extras ++ fields) = descriptionField fields := by
      unfold descriptionField
      rw [objLookup_append_of_not_mem _ _ _ (fun p hp => by
        have hh := h p hp
        simp only [List.mem_cons, not_or] at hh
        exact hh.1)]
    have hF : faviconField (extras ++ fields) = faviconField fields := by
      unfold faviconField
      rw [objLookup_append_of_not_mem _ _ _ (fun p hp => by
        have hh := h p hp
        simp only [List.mem_cons, not_or] at hh
        exact hh.2.1)]
    have hP : playersField (extras ++ fields) = playersField fields := by
      unfold playersField
      rw [objLookup_append_of_not_mem _ _ _ (fun p hp => by
        have hh := h p hp
        simp only [List.mem_cons, not_or] at hh
        exact hh.2.2.1)]
    have hV : versionField (extras ++ fields) = versionField fields := by
      unfold versionField
      rw [objLookup_append_of_not_mem _ _ _ (fun p hp => by
        have hh := h p hp
        simp only [List.mem_cons, not_or] at hh
        exact hh.2.2.2.1)]
    simp only [deserializeServerStatus, hD, hF, hP, hV]
  · simp only [deserializeDescription]
    rw [objLookup_append_of_not_mem "text" dextras dfields hd]

/-- C10 witness: one concrete unknown top-level key and one concrete
unknown key inside `description` leave the results unchanged. -/
theorem deserializeServerStatus_ignores_unknown_witness :
    deserializeServerStatus (.obj ([("motd", .num 1)] ++ [])) =
      deserializeServerStatus (.obj []) ∧
    deserializeDescription (.obj ([("extra", .arr [])] ++
        [("text", .str "hi")])) =
      deserializeDescription (.obj [("text", .str "hi")]) :=
  deserializeServerStatus_ignores_unknown [("motd", .num 1)] []
    [("extra", .arr [])] [("text", .str "hi")] (by decide) (by decide)

/-- C2 counterexample: the claim that `get_server_json` returns the
payload bytes as received fails on the code — for the response
`[7, 0, 2, 32, 48]` the two payload bytes decode to the text `" 0"`,
but the function returns `"0"`: the code re-serializes the parsed JSON
value (`json.to_string()`) instead of returning the received text. -/
theorem get_server_json_reserializes_counterexample :
    get_server_json [7, 0, 2, 32, 48] = .ok "0" ∧
      utf8Decode [32, 48] = some " 0" ∧ ("0" : String) ≠ " 0" :=
  ⟨rfl, rfl, by decide⟩

/-- C2 (amended): after the three VarInt headers, `get_server_json`
reads exactly the declared number of bytes — any further bytes in the
stream are ignored — and its result is determined by those bytes
alone: an encoding error iff they are not valid UTF-8, otherwise a
deserialization error if they are not valid JSON, otherwise the
re-serialization of the parsed JSON value. -/
theorem get_server_json_reads_declared_bytes (L I : Nat)
    (payload junk : List Nat) (hL : L < 2 ^ 31) (hI : I < 2 ^ 31)
    (hlen : payload.length ≤ MAX_PACKET_SIZE) :
    get_server_json (var_int_encode (L : Int) ++ var_int_encode (I : Int) ++
        var_int_encode ((payload.length : Nat) : Int) ++ (payload ++ junk)) =
      match utf8Decode payload with
      | none => .error .encodingError
      | some text =>
        match jsonParse text with
        | none => .error .deserializationError
        | some j => .ok (jsonToString j) := by
  have hn : payload.length < 2 ^ 31 := by
    unfold MAX_PACKET_SIZE at hlen
    omega
  rw [get_server_json_headers L I payload.length (payload ++ junk) hL hI hn,
    if_neg (by omega), if_neg (by simp), List.take_left]

/-- C2 witness: with trailing junk byte `9` after the two declared
payload bytes, the result is exactly the re-serialization of the
payload's JSON. -/
theorem get_server_json_reads_declared_bytes_witness :
    get_server_json (var_int_encode ((7 : Nat) : Int) ++
        var_int_encode ((0 : Nat) : Int) ++
        var_int_encode ((([32, 48] : List Nat).length : Nat) : Int) ++
        ([32, 48] ++ [9])) = .ok "0" := by
  rw [get_server_json_reads_declared_bytes 7 0 [32, 48] [9]
    (by norm_num) (by norm_num) (by norm_num [MAX_PACKET_SIZE])]
  rfl

end MCQuery
